import Mathlib

/-!
Verification of the avr-switchbot firmware (Arduino Uno IR-remote servo
controller). The development shallowly embeds the three source files:

* `src/clock.rs` — a wrapping `u32` tick counter (`Clock`);
* `src/servo.rs` — the servo position cell and the TC1 `OCR1A` compare
  register it drives (`Servo`, `TC1`);
* `src/main.rs` — the single-slot command mailbox (`CMD`), the two
  interrupt handlers (`PCINT2`, `TIMER0_COMPA`) and the main control loop.

Machine integers are modelled as `Nat` with explicit `% 2^32` (resp.
`% 2^16`) where the source relies on wraparound; side effects on the
`Mutex<Cell<_>>` statics become explicit state passing; the external NEC
decoder (`infrared` crate) is out of scope per the design, so its outcome
on each pin-change edge is an input to the handler, mirroring the
`Result<Option<NecCommand>, _>` it returns.
-/

set_option autoImplicit false
set_option linter.unusedVariables false

namespace AvrSwitchbot

/-! ## Clock (src/clock.rs)

`Clock` holds `cntr: Mutex<Cell<u32>>`.  `tick` does
`c.set(v.wrapping_add(1))`; `now` reads the cell.  The `u32` is a `Nat`
kept below `2^32` by an explicit modulus at the wrapping addition. -/

def U32_MOD : Nat := 2 ^ 32

def U16_MOD : Nat := 2 ^ 16

structure Clock where
  cntr : Nat
deriving Repr, DecidableEq

namespace Clock

/-- `Clock::new`: new clock starting at zero. -/
def new : Clock := ⟨0⟩

/-- `Clock::now`: get current timestamp (atomic read of the cell). -/
def now (c : Clock) : Nat := c.cntr

/-- `Clock::tick`: increment timing cntr, `v.wrapping_add(1)`. -/
def tick (c : Clock) : Clock := ⟨(c.cntr + 1) % U32_MOD⟩

end Clock

/-! ## Servo (src/servo.rs) -/

def SERVO_MIN : Nat := 125

def SERVO_MAX : Nat := 625

def SERVO_MID : Nat := 375

/-- The servo's owned position cell (`pos: Mutex<Cell<u16>>`). -/
structure Servo where
  pos : Nat
deriving Repr, DecidableEq

/-- The slice of the TC1 peripheral the servo writes: the `OCR1A`
compare register (pulse width on pin D9). -/
structure TC1 where
  ocr1a : Nat
deriving Repr, DecidableEq

namespace Servo

/-- `Servo::new`: new servo instance, position cell starts at `SERVO_MIN`. -/
def new : Servo := ⟨SERVO_MIN⟩

/-- `Servo::set_pos`: store `pos` in the cell, then write `OCR1A`. -/
def set_pos (sv : Servo) (t : TC1) (p : Nat) : Servo × TC1 :=
  ((⟨p⟩ : Servo), (⟨p⟩ : TC1))

/-- `Servo::get_pos`: read the position cell. -/
def get_pos (sv : Servo) : Nat := sv.pos

/-- `Servo::toggle`: toggle servo between min and max; returns the new
position alongside the updated state. -/
def toggle (sv : Servo) (t : TC1) : (Servo × TC1) × Nat :=
  let curr_pos := get_pos sv
  let new_pos := if curr_pos ≤ SERVO_MID then SERVO_MAX else SERVO_MIN
  (set_pos sv t new_pos, new_pos)

end Servo

/-! ## Command mailbox and decoded commands (src/main.rs) -/

/-- `NecCommand` from the `infrared` crate: address, command code and the
repeat flag. -/
structure NecCommand where
  addr : Nat
  cmd : Nat
  «repeat» : Bool
deriving Repr, DecidableEq

/-- The `CMD` static's initial value: `Mutex::new(Cell::new(None))`. -/
def CMD_init : Option NecCommand := none

/-- Publishing into the single-slot mailbox: `cell.set(Some(cmd))`
inside a critical section (overwrites any unread value). -/
def publish (mb : Option NecCommand) (c : NecCommand) : Option NecCommand :=
  some c

/-- `CMD.borrow(cs).take()`: read and clear the slot; returns the taken
value and the emptied slot. -/
def take (mb : Option NecCommand) : Option NecCommand × Option NecCommand :=
  (mb, none)

/-! ## Interrupt handlers (src/main.rs)

The external NEC decoder is out of scope by design, so the outcome of
`recv.event_instant(now)` — a `Result<Option<NecCommand>, DecodingError>` —
is an input to the pin-change handler.  The decoder's internal state is
opaque; the `RECEIVER` static is modelled by whether it holds a receiver
(`Option Receiver`), which is what the `unwrap()` in the handler depends
on.  A handler returns `none` exactly when it would panic. -/

/-- Opaque stand-in for `Receiver<Nec, IrPin>` (decoder state is owned by
the external `infrared` crate). -/
structure Receiver where
deriving Repr, DecidableEq

/-- Opaque stand-in for the `infrared` crate's decoding error (malformed
timing); the core never inspects it. -/
structure DecodingError where
deriving Repr, DecidableEq

/-- Outcome of `recv.event_instant(now)`. -/
abbrev DecodeOutcome := Except DecodingError (Option NecCommand)

/-- The `PCINT2` pin-change handler body: `RECEIVER.as_mut().unwrap()`
(panics — `none` — if the static is unset), then on `Ok(Some(cmd))`
publish into `CMD`; `Ok(None)` (partial signal) and `Err(_)` (decode
error) are ignored.  Returns the new mailbox contents. -/
def PCINT2 (receiver : Option Receiver) (outcome : DecodeOutcome)
    (mb : Option NecCommand) : Option (Option NecCommand) :=
  match receiver with
  | none => none
  | some _ =>
    match outcome with
    | Except.ok (some cmd) => some (publish mb cmd)
    | Except.ok none => some mb
    | Except.error _ => some mb

/-- The `TIMER0_COMPA` handler body: `CLOCK.tick()`. -/
def TIMER0_COMPA (clock : Clock) : Clock :=
  clock.tick

/-! ## Main control loop (src/main.rs)

One iteration of the `loop`: take from the mailbox; if a command is
present and `!cmd.repeat && cmd.cmd != 0`, call `SERVO.toggle(&dp.TC1)`,
wait 1 s, then `SERVO.set_pos(&dp.TC1, SERVO_MIN)`.  The servo calls the
body makes are also recorded as a trace so that "toggle is invoked
exactly once" is statable. -/

/-- A servo-mutating call made by the program. -/
inductive ServoCall where
  | toggleCall : ServoCall
  | setPosCall (p : Nat) : ServoCall
deriving Repr, DecidableEq

/-- Guard at src/main.rs:192: only respond to button presses, not
repeats: `!cmd.repeat && cmd.cmd != 0`. -/
def qualifies (cmd : NecCommand) : Bool :=
  !cmd.«repeat» && cmd.cmd != 0

/-- The main loop's action on one taken command (src/main.rs:192-207),
instrumented with the trace of servo calls performed, in order. -/
def mainLoopBodyTr (cmd : NecCommand) (sv : Servo) (t : TC1) :
    (Servo × TC1) × List ServoCall :=
  if qualifies cmd then
    let toggled := Servo.toggle sv t
    -- delay_ms(1000), then back to start
    let rested := Servo.set_pos toggled.1.1 toggled.1.2 SERVO_MIN
    (rested, [ServoCall.toggleCall, ServoCall.setPosCall SERVO_MIN])
  else
    ((sv, t), [])

/-- The state effect of one taken command (trace dropped). -/
def mainLoopBody (cmd : NecCommand) (sv : Servo) (t : TC1) : Servo × TC1 :=
  (mainLoopBodyTr cmd sv t).1

/-- The servo calls performed for one taken command.  (The trace depends
only on the command, not on the servo state.) -/
def mainLoopTrace (cmd : NecCommand) : List ServoCall :=
  (mainLoopBodyTr cmd Servo.new ⟨SERVO_MIN⟩).2

/-! ## Whole-system state and execution

The statics of `main.rs` (`CLOCK`, `RECEIVER`, `SERVO`, `CMD`) plus the
TC1 compare register, with the events that can occur after boot: a
pin-change interrupt (with the decoder outcome for that edge), a timer
interrupt, and one main-loop iteration. -/

structure Sys where
  clock : Clock
  receiver : Option Receiver
  servo : Servo
  tc1 : TC1
  mailbox : Option NecCommand
deriving Repr, DecidableEq

/-- State after `main`'s setup (src/main.rs:121-177): clock started at
its initial 0, `OCR1A` written with `SERVO_MIN` (line 146), the receiver
moved into `RECEIVER` (line 159) *before* interrupts are enabled (line
163), then the startup test `set_pos(MIN); set_pos(MAX); set_pos(MIN)`
(lines 167-173). -/
def bootSys : Sys :=
  let sv0 : Servo := Servo.new
  let t0 : TC1 := ⟨SERVO_MIN⟩
  let (sv1, t1) := Servo.set_pos sv0 t0 SERVO_MIN
  let (sv2, t2) := Servo.set_pos sv1 t1 SERVO_MAX
  let (sv3, t3) := Servo.set_pos sv2 t2 SERVO_MIN
  { clock := Clock.new
    receiver := some ⟨⟩
    servo := sv3
    tc1 := t3
    mailbox := CMD_init }

/-- Events possible once interrupts are enabled. -/
inductive Event where
  | pinChange (outcome : DecodeOutcome) : Event
  | timerTick : Event
  | loopIter : Event

/-- One event's effect on the system; `none` means a panic occurred. -/
def step (s : Sys) : Event → Option Sys
  | Event.pinChange outcome =>
    (PCINT2 s.receiver outcome s.mailbox).map fun mb =>
      { s with mailbox := mb }
  | Event.timerTick =>
    some { s with clock := TIMER0_COMPA s.clock }
  | Event.loopIter =>
    match (take s.mailbox).1 with
    | some cmd =>
      let st := mainLoopBody cmd s.servo s.tc1
      some { s with mailbox := (take s.mailbox).2, servo := st.1, tc1 := st.2 }
    | none => some { s with mailbox := (take s.mailbox).2 }

/-- Run a sequence of events; `none` once any step panics. -/
def run (s : Sys) : List Event → Option Sys
  | [] => some s
  | e :: es =>
    match step s e with
    | some s1 => run s1 es
    | none => none

/-- The set-position arguments the program ever passes to
`Servo::set_pos` directly are `SERVO_MIN` and `SERVO_MAX` (startup test,
main.rs:167-173, and the return-to-rest at main.rs:198); the only other
position-changing call is `Servo::toggle`.  A `ProgServoCall` is one such
call. -/
inductive ProgServoCall where
  | setMin : ProgServoCall
  | setMax : ProgServoCall
  | tog : ProgServoCall
deriving Repr, DecidableEq

/-- Effect of one of the program's servo calls on (position cell, TC1). -/
def applyProgCall (st : Servo × TC1) : ProgServoCall → Servo × TC1
  | ProgServoCall.setMin => Servo.set_pos st.1 st.2 SERVO_MIN
  | ProgServoCall.setMax => Servo.set_pos st.1 st.2 SERVO_MAX
  | ProgServoCall.tog => (Servo.toggle st.1 st.2).1

/-! ## Helper lemmas -/

lemma u32_mod_eq : U32_MOD = 4294967296 := by norm_num [U32_MOD]

lemma tick_iterate : ∀ (N v : Nat), v < U32_MOD →
    Clock.tick^[N] ⟨v⟩ = ⟨(v + N) % U32_MOD⟩ := by
  intro N
  induction N with
  | zero =>
    intro v hv
    simp [Nat.mod_eq_of_lt hv]
  | succ n ih =>
    intro v hv
    rw [Function.iterate_succ_apply]
    have h1 : Clock.tick ⟨v⟩ = ⟨(v + 1) % U32_MOD⟩ := rfl
    rw [h1, ih _ (Nat.mod_lt _ (by rw [u32_mod_eq]; norm_num))]
    congr 1
    rw [u32_mod_eq]
    omega

/-- A range predicate for the servo state pair: both the stored position
and the derived `OCR1A` value lie in `[SERVO_MIN, SERVO_MAX]`. -/
def stInRange (st : Servo × TC1) : Prop :=
  SERVO_MIN ≤ st.1.pos ∧ st.1.pos ≤ SERVO_MAX ∧
    SERVO_MIN ≤ st.2.ocr1a ∧ st.2.ocr1a ≤ SERVO_MAX

instance (st : Servo × TC1) : Decidable (stInRange st) := by
  unfold stInRange
  infer_instance

lemma applyProgCall_in_range (st : Servo × TC1) (c : ProgServoCall)
    (h : stInRange st) : stInRange (applyProgCall st c) := by
  cases c with
  | setMin => simp [applyProgCall, Servo.set_pos, stInRange, SERVO_MIN, SERVO_MAX]
  | setMax => simp [applyProgCall, Servo.set_pos, stInRange, SERVO_MIN, SERVO_MAX]
  | tog =>
    simp only [applyProgCall, Servo.toggle, Servo.get_pos, Servo.set_pos, stInRange]
    split_ifs <;> simp [SERVO_MIN, SERVO_MAX]

lemma foldl_progCalls_in_range (calls : List ProgServoCall) :
    ∀ st, stInRange st → stInRange (calls.foldl applyProgCall st) := by
  induction calls with
  | nil => intro st h; exact h
  | cons c cs ih =>
    intro st h
    exact ih _ (applyProgCall_in_range st c h)

lemma mainLoopBody_in_range (cmd : NecCommand) (sv : Servo) (t : TC1)
    (h : stInRange (sv, t)) : stInRange (mainLoopBody cmd sv t) := by
  unfold mainLoopBody mainLoopBodyTr
  by_cases hq : qualifies cmd = true
  · simp only [hq, if_true]
    simp only [Servo.toggle, Servo.get_pos, Servo.set_pos, stInRange]
    norm_num [SERVO_MIN, SERVO_MAX]
  · simp only [Bool.not_eq_true] at hq
    simp only [hq, Bool.false_eq_true, if_false]
    exact h

lemma step_in_range (s : Sys) (e : Event) (s1 : Sys)
    (hstep : step s e = some s1)
    (h : stInRange (s.servo, s.tc1)) : stInRange (s1.servo, s1.tc1) := by
  cases e with
  | pinChange outcome =>
    unfold step at hstep
    cases hr : s.receiver with
    | none => rw [hr] at hstep; simp [PCINT2] at hstep
    | some rv =>
      rw [hr] at hstep
      cases outcome with
      | ok o =>
        cases o with
        | none =>
          simp [PCINT2, Option.map] at hstep
          rw [← hstep]; exact h
        | some cmd =>
          simp [PCINT2, Option.map] at hstep
          rw [← hstep]; exact h
      | error err =>
        simp [PCINT2, Option.map] at hstep
        rw [← hstep]; exact h
  | timerTick =>
    unfold step at hstep
    simp at hstep
    rw [← hstep]; exact h
  | loopIter =>
    unfold step take at hstep
    cases hm : s.mailbox with
    | none =>
      rw [hm] at hstep
      simp at hstep
      rw [← hstep]; exact h
    | some cmd =>
      rw [hm] at hstep
      simp at hstep
      rw [← hstep]
      exact mainLoopBody_in_range cmd s.servo s.tc1 h

lemma run_in_range (evs : List Event) :
    ∀ s s1, run s evs = some s1 → stInRange (s.servo, s.tc1) →
      stInRange (s1.servo, s1.tc1) := by
  induction evs with
  | nil =>
    intro s s1 hrun h
    simp [run] at hrun
    rw [← hrun]; exact h
  | cons e es ih =>
    intro s s1 hrun h
    unfold run at hrun
    cases hstep : step s e with
    | none => rw [hstep] at hrun; simp at hrun
    | some s2 =>
      rw [hstep] at hrun
      exact ih s2 s1 hrun (step_in_range s e s2 hstep h)

lemma step_receiver_total (s : Sys) (e : Event)
    (h : s.receiver.isSome = true) :
    ∃ s1, step s e = some s1 ∧ s1.receiver.isSome = true := by
  cases e with
  | pinChange outcome =>
    obtain ⟨rv, hr⟩ := Option.isSome_iff_exists.mp h
    obtain ⟨m, hm⟩ : ∃ m, PCINT2 s.receiver outcome s.mailbox = some m := by
      rw [hr]
      cases outcome with
      | ok o =>
        cases o with
        | none => exact ⟨s.mailbox, rfl⟩
        | some cmd => exact ⟨some cmd, rfl⟩
      | error err => exact ⟨s.mailbox, rfl⟩
    refine ⟨{ s with mailbox := m }, ?_, h⟩
    simp [step, hm]
  | timerTick => exact ⟨{ s with clock := TIMER0_COMPA s.clock }, rfl, h⟩
  | loopIter =>
    cases hm : s.mailbox with
    | none =>
      refine ⟨{ s with mailbox := none }, ?_, h⟩
      simp [step, take, hm]
    | some cmd =>
      refine ⟨{ s with mailbox := none, servo := (mainLoopBody cmd s.servo s.tc1).1, tc1 := (mainLoopBody cmd s.servo s.tc1).2 }, ?_, h⟩
      simp [step, take, hm]

lemma run_total_of_receiver (evs : List Event) :
    ∀ s, s.receiver.isSome = true → (run s evs).isSome = true := by
  induction evs with
  | nil => intro s h; simp [run]
  | cons e es ih =>
    intro s h
    obtain ⟨s1, hstep, hrecv⟩ := step_receiver_total s e h
    unfold run
    rw [hstep]
    exact ih s1 hrecv

/-! ## Claims -/

/-- C1: for every decoded command taken from the mailbox by the main
loop, if the command has `repeat = true` or its command code is `0`, the
loop performs no servo call and leaves the actuator state unchanged;
otherwise it performs exactly one `toggle()` followed by exactly one
`set_pos(SERVO_MIN)` (one of each, in that order). -/
theorem command_filtering (cmd : NecCommand) (sv : Servo) (t : TC1) :
    (cmd.«repeat» = true ∨ cmd.cmd = 0 →
      mainLoopTrace cmd = [] ∧ mainLoopBody cmd sv t = (sv, t)) ∧
    (cmd.«repeat» = false → cmd.cmd ≠ 0 →
      mainLoopTrace cmd = [ServoCall.toggleCall, ServoCall.setPosCall SERVO_MIN] ∧
      (mainLoopTrace cmd).count ServoCall.toggleCall = 1 ∧
      (mainLoopTrace cmd).count (ServoCall.setPosCall SERVO_MIN) = 1) := by
  constructor
  · intro h
    have hq : qualifies cmd = false := by
      rcases h with h | h <;> simp [qualifies, h]
    constructor
    · simp [mainLoopTrace, mainLoopBodyTr, hq]
    · simp [mainLoopBody, mainLoopBodyTr, hq]
  · intro h1 h2
    have hq : qualifies cmd = true := by
      simp [qualifies, h1, bne_iff_ne, h2]
    have htr : mainLoopTrace cmd =
        [ServoCall.toggleCall, ServoCall.setPosCall SERVO_MIN] := by
      simp [mainLoopTrace, mainLoopBodyTr, hq]
    refine ⟨htr, ?_, ?_⟩ <;> rw [htr] <;> decide

/-- C1 witness: a repeat command and the no-op code are filtered (no
servo call, state unchanged); the command `{addr 0, cmd 1, repeat false}`
produces the toggle-then-rest trace. -/
theorem command_filtering_witness :
    (mainLoopTrace ⟨0, 0, true⟩ = [] ∧
      mainLoopBody ⟨0, 0, true⟩ Servo.new ⟨SERVO_MIN⟩ = (Servo.new, ⟨SERVO_MIN⟩)) ∧
    mainLoopTrace ⟨0, 1, false⟩ =
      [ServoCall.toggleCall, ServoCall.setPosCall SERVO_MIN] :=
  ⟨(command_filtering ⟨0, 0, true⟩ Servo.new ⟨SERVO_MIN⟩).1 (Or.inl rfl),
   ((command_filtering ⟨0, 1, false⟩ Servo.new ⟨SERVO_MIN⟩).2 rfl (by decide)).1⟩

/-- C2: from any counter value `v < 2^32`, after `N` calls to `tick()`
the value `now()` returns is `(v + N) % 2^32`; at the wraparound boundary
a single tick from `2^32 - 1` yields `0` (wrapping, never panicking or
saturating). -/
theorem clock_monotonic_wraparound (v N : Nat) (h : v < U32_MOD) :
    Clock.now (Clock.tick^[N] ⟨v⟩) = (v + N) % U32_MOD ∧
    Clock.tick ⟨U32_MOD - 1⟩ = ⟨0⟩ := by
  constructor
  · rw [tick_iterate N v h]; rfl
  · have hz : (U32_MOD - 1 + 1) % U32_MOD = 0 := by rw [u32_mod_eq]
    simp [Clock.tick, hz]

/-- C2 witness: starting at `2^32 - 1 = 4294967295`, one tick makes
`now()` return `0`. -/
theorem clock_monotonic_wraparound_witness :
    Clock.now (Clock.tick^[1] ⟨4294967295⟩) = 0 ∧
    Clock.tick ⟨U32_MOD - 1⟩ = ⟨0⟩ := by
  have h := clock_monotonic_wraparound 4294967295 1 (by rw [u32_mod_eq]; norm_num)
  refine ⟨?_, h.2⟩
  rw [h.1, u32_mod_eq]

/-- C3: publishing `A` then `B` into the mailbox with no intervening
take leaves only `B`: the next take returns `some B` (A is discarded)
and empties the slot, so an immediately following take returns `none`. -/
theorem mailbox_latest_wins (mb : Option NecCommand) (a b : NecCommand) :
    (take (publish (publish mb a) b)).1 = some b ∧
    (take ((take (publish (publish mb a) b)).2)).1 = none :=
  ⟨rfl, rfl⟩

/-- C4: `toggle()` from any state commands and returns `SERVO_MAX` when
the current position is at or below `SERVO_MID`, and `SERVO_MIN` when it
is above; afterwards `get_pos()` (and the hardware compare register)
equal the returned value. -/
theorem toggle_threshold (sv : Servo) (t : TC1) :
    (Servo.toggle sv t).2 =
      (if Servo.get_pos sv ≤ SERVO_MID then SERVO_MAX else SERVO_MIN) ∧
    Servo.get_pos (Servo.toggle sv t).1.1 = (Servo.toggle sv t).2 ∧
    ((Servo.toggle sv t).1.2).ocr1a = (Servo.toggle sv t).2 :=
  ⟨rfl, rfl, rfl⟩

/-- C5: the actuator position starts at `SERVO_MIN`; every sequence of
the servo-mutating calls the program performs (`set_pos(SERVO_MIN)` and
`set_pos(SERVO_MAX)` in the startup test and return-to-rest, `toggle` in
the main loop) keeps both the stored position and the hardware compare
value within `[SERVO_MIN, SERVO_MAX]`; and in every system state
reachable from boot the invariant holds. -/
theorem actuator_range_invariant (calls : List ProgServoCall)
    (evs : List Event) (s : Sys) (h : run bootSys evs = some s) :
    Servo.get_pos Servo.new = SERVO_MIN ∧
    stInRange (calls.foldl applyProgCall (Servo.new, ⟨SERVO_MIN⟩)) ∧
    stInRange (s.servo, s.tc1) := by
  refine ⟨rfl, foldl_progCalls_in_range calls _ (by decide), ?_⟩
  exact run_in_range evs bootSys s h (by decide)

/-- C5 witness: the startup-test call sequence `MIN, MAX, MIN` and the
boot state itself satisfy the range invariant. -/
theorem actuator_range_invariant_witness :
    Servo.get_pos Servo.new = SERVO_MIN ∧
    stInRange ([ProgServoCall.setMin, ProgServoCall.setMax,
      ProgServoCall.setMin].foldl applyProgCall (Servo.new, ⟨SERVO_MIN⟩)) ∧
    stInRange (bootSys.servo, bootSys.tc1) :=
  actuator_range_invariant
    [ProgServoCall.setMin, ProgServoCall.setMax, ProgServoCall.setMin]
    [] bootSys rfl

/-- C6: the interrupt handlers are total on every reachable state: any
sequence of post-boot events (pin-change interrupts with arbitrary
decoder outcomes, timer interrupts, main-loop iterations) runs without
any panic, and in particular firing either handler after any reachable
execution succeeds — the `unwrap()` in `PCINT2` cannot fail because
`RECEIVER` is populated before interrupts are enabled, and
`TIMER0_COMPA` is a total increment. -/
theorem interrupt_handlers_total (evs : List Event) (outcome : DecodeOutcome) :
    (run bootSys evs).isSome = true ∧
    (run bootSys (evs ++ [Event.pinChange outcome])).isSome = true ∧
    (run bootSys (evs ++ [Event.timerTick])).isSome = true :=
  ⟨run_total_of_receiver evs bootSys rfl,
   run_total_of_receiver (evs ++ [Event.pinChange outcome]) bootSys rfl,
   run_total_of_receiver (evs ++ [Event.timerTick]) bootSys rfl⟩

/-- C7: in the pin-change handler the mailbox is written exactly on a
complete decode: outcome `Ok(Some(cmd))` publishes `cmd`, while a
partial frame `Ok(None)` and a decode error `Err(_)` leave the mailbox
unchanged, and the handler returns normally (no error surfaced) in all
three cases. -/
theorem pcint2_mailbox_writes (r : Option Receiver) (outcome : DecodeOutcome)
    (mb : Option NecCommand) (h : r.isSome = true) :
    PCINT2 r outcome mb =
      some (match outcome with
            | Except.ok (some cmd) => publish mb cmd
            | Except.ok none => mb
            | Except.error _ => mb) := by
  obtain ⟨rv, hr⟩ := Option.isSome_iff_exists.mp h
  rw [hr]
  cases outcome with
  | ok o => cases o <;> rfl
  | error e => rfl

/-- C7 witness: a complete decode publishes the command; a partial frame
and a decode error leave the (here non-empty) mailbox unchanged. -/
theorem pcint2_mailbox_writes_witness :
    PCINT2 (some ⟨⟩) (Except.ok (some ⟨0, 1, false⟩)) none =
      some (some ⟨0, 1, false⟩) ∧
    PCINT2 (some ⟨⟩) (Except.ok none) (some ⟨0, 1, false⟩) =
      some (some ⟨0, 1, false⟩) ∧
    PCINT2 (some ⟨⟩) (Except.error ⟨⟩) (some ⟨0, 1, false⟩) =
      some (some ⟨0, 1, false⟩) :=
  ⟨pcint2_mailbox_writes (some ⟨⟩) (Except.ok (some ⟨0, 1, false⟩)) none rfl,
   pcint2_mailbox_writes (some ⟨⟩) (Except.ok none) (some ⟨0, 1, false⟩) rfl,
   pcint2_mailbox_writes (some ⟨⟩) (Except.error ⟨⟩) (some ⟨0, 1, false⟩) rfl⟩

/-- C8: two qualifying (non-repeat, nonzero-code) commands processed
sequentially each produce one toggle-then-rest cycle (servo-call trace
`[toggle, set_pos(SERVO_MIN)]`), and each full cycle that starts with the
position at `SERVO_MIN` also ends with it at `SERVO_MIN`. -/
theorem settle_sequence_idempotent (c1 c2 : NecCommand) (sv : Servo) (t : TC1)
    (h1 : qualifies c1 = true) (h2 : qualifies c2 = true) :
    mainLoopTrace c1 = [ServoCall.toggleCall, ServoCall.setPosCall SERVO_MIN] ∧
    mainLoopTrace c2 = [ServoCall.toggleCall, ServoCall.setPosCall SERVO_MIN] ∧
    (Servo.get_pos sv = SERVO_MIN →
      Servo.get_pos (mainLoopBody c1 sv t).1 = SERVO_MIN) ∧
    (Servo.get_pos (mainLoopBody c1 sv t).1 = SERVO_MIN →
      Servo.get_pos
        (mainLoopBody c2 (mainLoopBody c1 sv t).1 (mainLoopBody c1 sv t).2).1 =
        SERVO_MIN) := by
  refine ⟨?_, ?_, ?_, ?_⟩
  · simp [mainLoopTrace, mainLoopBodyTr, h1]
  · simp [mainLoopTrace, mainLoopBodyTr, h2]
  · intro hmin
    simp [mainLoopBody, mainLoopBodyTr, h1, Servo.set_pos, Servo.get_pos]
  · intro hmin
    simp [mainLoopBody, mainLoopBodyTr, h2, Servo.set_pos, Servo.get_pos]

/-- C8 witness: two copies of the qualifying command
`{addr 0, cmd 1, repeat false}` from the boot position `SERVO_MIN`: each
cycle has the toggle-then-rest trace and ends back at `SERVO_MIN`. -/
theorem settle_sequence_idempotent_witness :
    mainLoopTrace ⟨0, 1, false⟩ =
      [ServoCall.toggleCall, ServoCall.setPosCall SERVO_MIN] ∧
    Servo.get_pos (mainLoopBody ⟨0, 1, false⟩ Servo.new ⟨SERVO_MIN⟩).1 =
      SERVO_MIN := by
  have h := settle_sequence_idempotent ⟨0, 1, false⟩ ⟨0, 1, false⟩
    Servo.new ⟨SERVO_MIN⟩ (by decide) (by decide)
  exact ⟨h.1, h.2.2.1 rfl⟩

/-- C9: at boot every piece of state holds its default before any
operation runs: the clock counter is `0` (`Clock::new`), the actuator
position is `SERVO_MIN` (`Servo::new`), and the command mailbox is empty
(`CMD`'s initializer). -/
theorem boot_defaults :
    Clock.now Clock.new = 0 ∧
    Servo.get_pos Servo.new = SERVO_MIN ∧
    CMD_init = none :=
  ⟨rfl, rfl, rfl⟩

/-- C10: `set_pos` stores its argument verbatim — no clamping and no
rejection: for every `u16` value `p` (including values outside
`[SERVO_MIN, SERVO_MAX]`), after `set_pos(p)` a `get_pos()` returns
exactly `p` and the hardware compare register holds exactly `p`. -/
theorem set_pos_verbatim (sv : Servo) (t : TC1) (p : Nat) (h : p < U16_MOD) :
    Servo.get_pos (Servo.set_pos sv t p).1 = p ∧
    ((Servo.set_pos sv t p).2).ocr1a = p :=
  ⟨rfl, rfl⟩

/-- C10 witness: `set_pos(1000)` with `1000` outside `[125, 625]` stores
and forwards `1000` unchanged. -/
theorem set_pos_verbatim_witness :
    Servo.get_pos (Servo.set_pos Servo.new ⟨SERVO_MIN⟩ 1000).1 = 1000 ∧
    ((Servo.set_pos Servo.new ⟨SERVO_MIN⟩ 1000).2).ocr1a = 1000 :=
  set_pos_verbatim Servo.new ⟨SERVO_MIN⟩ 1000 (by norm_num [U16_MOD])

end AvrSwitchbot
